import Mathlib

/-!
Shallow embedding of the shopify-tracker-backend webhook service
(src/index.js, final variant): HMAC-SHA256 webhook verification,
order-number normalization, fulfillment reconciliation (upsert into a
document store keyed by the normalized order number), and tracking lookup.

Bytes are modelled as `Nat` (each < 256) and 32-bit machine words as
`Nat` reduced modulo 2^32 where overflow matters.
-/

namespace ShopifyTracker

/-- Reduce a natural number to a 32-bit word. -/
def w32 (n : Nat) : Nat := n % 4294967296

/-- Right rotation of a 32-bit word (input assumed < 2^32). -/
def rotr32 (x n : Nat) : Nat := w32 ((x >>> n) ||| (x <<< (32 - n)))

/-- SHA-256 round constants (FIPS 180-4), written in decimal. -/
def shaK : List Nat :=
  [1116352408, 1899447441, 3049323471, 3921009573,
   961987163, 1508970993, 2453635748, 2870763221,
   3624381080, 310598401, 607225278, 1426881987,
   1925078388, 2162078206, 2614888103, 3248222580,
   3835390401, 4022224774, 264347078, 604807628,
   770255983, 1249150122, 1555081692, 1996064986,
   2554220882, 2821834349, 2952996808, 3210313671,
   3336571891, 3584528711, 113926993, 338241895,
   666307205, 773529912, 1294757372, 1396182291,
   1695183700, 1986661051, 2177026350, 2456956037,
   2730485921, 2820302411, 3259730800, 3345764771,
   3516065817, 3600352804, 4094571909, 275423344,
   430227734, 506948616, 659060556, 883997877,
   958139571, 1322822218, 1537002063, 1747873779,
   1955562222, 2024104815, 2227730452, 2361852424,
   2428436474, 2756734187, 3204031479, 3329325298]

/-- SHA-256 initial hash value (FIPS 180-4), written in decimal. -/
def shaInit : List Nat :=
  [1779033703, 3144134277, 1013904242, 2773480762,
   1359893119, 2600822924, 528734635, 1541459225]

/-- Most-significant-first byte decomposition of `n` into `k` bytes. -/
def beBytes : Nat → Nat → List Nat
  | 0, _ => []
  | k + 1, n => ((n >>> (8 * k)) % 256) :: beBytes k n

/-- Group a byte list into big-endian 32-bit words (drops a trailing
incomplete group; inputs are always multiples of 4 bytes here). -/
def bytesToWords : List Nat → List Nat
  | a :: b :: c :: d :: rest => (((a * 256 + b) * 256 + c) * 256 + d) :: bytesToWords rest
  | _ => []

def smallSigma0 (x : Nat) : Nat := (rotr32 x 7) ^^^ (rotr32 x 18) ^^^ (x >>> 3)

def smallSigma1 (x : Nat) : Nat := (rotr32 x 17) ^^^ (rotr32 x 19) ^^^ (x >>> 10)

def bigSigma0 (x : Nat) : Nat := (rotr32 x 2) ^^^ (rotr32 x 13) ^^^ (rotr32 x 22)

def bigSigma1 (x : Nat) : Nat := (rotr32 x 6) ^^^ (rotr32 x 11) ^^^ (rotr32 x 25)

def chF (x y z : Nat) : Nat := (x &&& y) ^^^ ((x ^^^ 0xffffffff) &&& z)

def majF (x y z : Nat) : Nat := (x &&& y) ^^^ (x &&& z) ^^^ (y &&& z)

/-- Extend the 16-word message block to the 64-word schedule; called with
fuel 48, pushing one word per step. -/
def extendSchedule : Nat → Array Nat → Array Nat
  | 0, w => w
  | n + 1, w =>
      let t := w.size
      let next := w32 (smallSigma1 (w.getD (t - 2) 0) + w.getD (t - 7) 0 +
                       smallSigma0 (w.getD (t - 15) 0) + w.getD (t - 16) 0)
      extendSchedule n (w.push next)

/-- One SHA-256 compression round on state [a,b,c,d,e,f,g,h]. -/
def compressStep (k w : Nat) : List Nat → List Nat
  | [a, b, c, d, e, f, g, h] =>
      let t1 := w32 (h + bigSigma1 e + chF e f g + k + w)
      let t2 := w32 (bigSigma0 a + majF a b c)
      [w32 (t1 + t2), a, b, c, w32 (d + t1), e, f, g]
  | s => s

/-- Compress one 64-byte block into the running hash. -/
def compressBlock (h : List Nat) (block : List Nat) : List Nat :=
  let w := extendSchedule 48 (Array.mk (bytesToWords block))
  let final := (List.zip shaK w.toList).foldl (fun s kw => compressStep kw.1 kw.2 s) h
  List.zipWith (fun x y => w32 (x + y)) h final

/-- SHA-256 padding: append 0x80, zero bytes, then the 64-bit big-endian
bit length, reaching a multiple of 64 bytes. -/
def sha256Pad (msg : List Nat) : List Nat :=
  let len := msg.length
  msg ++ [0x80] ++ List.replicate ((55 + 64 - len % 64) % 64) 0 ++ beBytes 8 (len * 8)

/-- Split a byte list into 64-byte chunks; structural recursion on a
fuel argument (each step consumes at least one element, so the list
length is enough fuel). -/
def chunks64Fuel : Nat → List Nat → List (List Nat)
  | 0, _ => []
  | _ + 1, [] => []
  | fuel + 1, x :: xs => (x :: xs.take 63) :: chunks64Fuel fuel (xs.drop 63)

/-- Split a byte list into 64-byte chunks. -/
def chunks64 (l : List Nat) : List (List Nat) := chunks64Fuel l.length l

/-- SHA-256 of a byte list, as a 32-byte list. -/
def sha256 (msg : List Nat) : List Nat :=
  (((chunks64 (sha256Pad msg)).foldl compressBlock shaInit).map (beBytes 4)).flatten

/-- HMAC-SHA256 (RFC 2104) with byte-list key and message, block size 64. -/
def hmacSha256 (key msg : List Nat) : List Nat :=
  let k0 := if key.length > 64 then sha256 key else key
  let kPad := k0 ++ List.replicate (64 - k0.length) 0
  sha256 ((kPad.map (fun b => b ^^^ 0x5c)) ++
          sha256 ((kPad.map (fun b => b ^^^ 0x36)) ++ msg))

/-- The standard base64 alphabet. -/
def base64Chars : List Char :=
  "ABCDEFGHIJKLMNOPQRSTUVWXYZabcdefghijklmnopqrstuvwxyz0123456789+/".toList

def b64Char (n : Nat) : Char := base64Chars.getD n 'A'

/-- Standard base64 encoding with '=' padding, as produced by Node's
digest to base64 conversion. -/
def base64Encode : List Nat → String
  | [] => ""
  | [a] => String.mk [b64Char (a >>> 2), b64Char ((a % 4) <<< 4), '=', '=']
  | [a, b] => String.mk [b64Char (a >>> 2), b64Char (((a % 4) <<< 4) ||| (b >>> 4)),
                         b64Char ((b % 16) <<< 2), '=']
  | a :: b :: c :: rest =>
      String.mk [b64Char (a >>> 2), b64Char (((a % 4) <<< 4) ||| (b >>> 4)),
                 b64Char (((b % 16) <<< 2) ||| (c >>> 6)), b64Char (c % 64)] ++
      base64Encode rest

/-!
Application layer. JS semantics captured explicitly:
an absent value (`undefined`) is `none`; a header string is truthy iff
non-empty; a Buffer object is truthy even when it holds zero bytes, so
the raw-body presence check `!req.rawBody` only detects an absent buffer.
-/

/-- JS truthiness of an optional string (`undefined` and the empty string
are falsy). -/
def jsTruthy : Option String → Bool
  | none => false
  | some s => !s.isEmpty

/-- JS `x || ""` on an optional string. -/
def jsOrEmpty : Option String → String
  | none => ""
  | some s => s

/-- Drop one leading hash character, as the regex replace of an optional
leading hash with the empty string does (src/index.js line 159). -/
def stripLeadingHash (s : String) : String :=
  match s.data with
  | c :: rest => if c = '#' then String.mk rest else s
  | [] => s

/-- Drop a trailing dot-digits group (regex: a literal dot then one or
more digits anchored at the end), as src/index.js line 160 does: the
maximal trailing digit run is removed together with the dot directly
before it, when both exist. -/
def stripDotSuffix (s : String) : String :=
  match s.data.reverse.dropWhile Char.isDigit with
  | '.' :: rest2 =>
      if (s.data.reverse.takeWhile Char.isDigit).isEmpty then s else String.mk rest2.reverse
  | _ => s

/-- normalizeOrderNumber (src/index.js lines 157-160): strip one leading
hash, then strip one trailing dot-number suffix. -/
def normalizeOrderNumber (raw : String) : String :=
  stripDotSuffix (stripLeadingHash raw)

/-- The fields of a parsed fulfillment payload that the program reads.
JSON.parse is external; its result is modelled by this projection. -/
structure Fulfillment where
  name : Option String
  tracking_urls : Option (List String)
  tracking_url : Option String
deriving Repr, DecidableEq

/-- pickTrackingUrl (src/index.js lines 162-165): the first element of
the array field if the field is an array and that element is truthy,
else the singular field if truthy, else null. -/
def pickTrackingUrl (f : Fulfillment) : Option String :=
  let arrHead : Option String :=
    match f.tracking_urls with
    | some (u :: _) => if u.isEmpty then none else some u
    | _ => none
  match arrHead with
  | some u => some u
  | none =>
      match f.tracking_url with
      | some u => if u.isEmpty then none else some u
      | none => none

/-- Outcome of the verification middleware. -/
inductive VerifyOutcome where
  | missingHeaders
  | unauthorized
  | badRequest
  | pass (payload : Fulfillment)
deriving Repr, DecidableEq

deriving instance DecidableEq for Except

/-- verifyShopifyWebhook (src/index.js lines 168-194). `parseJson`
stands for the external JSON.parse composed with UTF-8 decoding, with
`none` for a parse exception; `secret` is the environment variable, with
`none` for unset. Node's createHmac throws a TypeError when the key is
undefined, modelled by the `Except.error` branch; that construction
happens only after the presence check on the three headers and the raw
buffer passes. -/
def verifyShopifyWebhook (parseJson : List Nat → Option Fulfillment)
    (secret : Option (List Nat))
    (hmacHeader topicHeader shopHeader : Option String)
    (rawBody : Option (List Nat)) : Except Unit VerifyOutcome :=
  if !(jsTruthy hmacHeader) || rawBody.isNone || !(jsTruthy topicHeader) || !(jsTruthy shopHeader) then
    Except.ok VerifyOutcome.missingHeaders
  else
    match secret with
    | none => Except.error ()
    | some key =>
        let gen := base64Encode (hmacSha256 key (rawBody.getD []))
        if gen ≠ jsOrEmpty hmacHeader then
          Except.ok VerifyOutcome.unauthorized
        else
          match parseJson (rawBody.getD []) with
          | some p => Except.ok (VerifyOutcome.pass p)
          | none => Except.ok VerifyOutcome.badRequest

/-- The persisted tracking record (timestamp field omitted: wall-clock
time is external and never read back by the program). -/
structure TrackingRecord where
  orderNumberBase : String
  orderNumber : String
  trackingUrl : String
deriving Repr, DecidableEq

/-- One history-subcollection entry. -/
structure HistoryEntry where
  trackingUrl : String
  source : String
deriving Repr, DecidableEq

/-- The document store: the orders collection as an association list
keyed by document id, plus the appended history entries keyed by the
parent document id. -/
structure Store where
  orders : List (String × TrackingRecord)
  history : List (String × HistoryEntry)
deriving Repr, DecidableEq

def Store.empty : Store := ⟨[], []⟩

/-- Firestore doc(id).set with merge: replace the record at the existing
document id, or create the document. All written fields are replaced. -/
def ordersSet : List (String × TrackingRecord) → String → TrackingRecord →
    List (String × TrackingRecord)
  | [], k, r => [(k, r)]
  | (k1, r1) :: rest, k, r =>
      if k1 = k then (k, r) :: rest else (k1, r1) :: ordersSet rest k r

/-- Firestore doc(id).get. -/
def ordersGet : List (String × TrackingRecord) → String → Option TrackingRecord
  | [], _ => none
  | (k1, r1) :: rest, k => if k1 = k then some r1 else ordersGet rest k

/-- handleFulfillment (src/index.js lines 200-234). `setFails` and
`historyFails` model the two awaited store writes throwing; either way
the exception is caught and the response is HTTP 200. Returns the HTTP
status and the resulting store. -/
def handleFulfillment (st : Store) (f : Fulfillment) (source : String)
    (setFails historyFails : Bool) : Nat × Store :=
  let rawName := jsOrEmpty f.name
  let base := normalizeOrderNumber rawName
  let display := "#" ++ base
  let trackingUrl := pickTrackingUrl f
  if !base.isEmpty && trackingUrl.isSome then
    if setFails then (200, st)
    else
      let st2 : Store := ⟨ordersSet st.orders base ⟨base, display, trackingUrl.getD ""⟩, st.history⟩
      if historyFails then (200, st2)
      else (200, ⟨st2.orders, st2.history ++ [(base, ⟨trackingUrl.getD "", source⟩)]⟩)
  else (200, st)

/-- Outcome of the public lookup route. -/
inductive LookupOutcome where
  | badRequest
  | notFound
  | serverError
  | found (trackingUrl : String)
deriving Repr, DecidableEq

/-- JS String.prototype.trim: drop leading and trailing whitespace. -/
def jsTrim (s : String) : String :=
  String.mk ((s.data.dropWhile Char.isWhitespace).reverse.dropWhile Char.isWhitespace).reverse

/-- The get-tracking-url route handler (src/index.js lines 246-265).
`readFails` models the store read throwing (caught as HTTP 500). -/
def lookupTracking (st : Store) (orderNumberQuery : Option String)
    (readFails : Bool) : LookupOutcome :=
  let q := jsTrim (jsOrEmpty orderNumberQuery)
  if q.isEmpty then LookupOutcome.badRequest
  else if readFails then LookupOutcome.serverError
  else
    match ordersGet st.orders (normalizeOrderNumber q) with
    | none => LookupOutcome.notFound
    | some r => LookupOutcome.found r.trackingUrl

/-- Distinct keys in the orders collection: Firestore document ids are
unique within a collection. -/
def keysUnique (l : List (String × TrackingRecord)) : Prop :=
  (l.map Prod.fst).Nodup

/-- Number of records stored under a key. -/
def countKey (l : List (String × TrackingRecord)) (k : String) : Nat :=
  (l.filter (fun p => p.1 == k)).length

/-! Helper lemmas about the store. -/

theorem ordersGet_ordersSet_self (l : List (String × TrackingRecord)) (k : String)
    (r : TrackingRecord) : ordersGet (ordersSet l k r) k = some r := by
  induction l with
  | nil => simp [ordersSet, ordersGet]
  | cons p rest ih =>
      obtain ⟨k1, r1⟩ := p
      by_cases h : k1 = k <;> simp [ordersSet, ordersGet, h, ih]

theorem mem_keys_ordersSet (l : List (String × TrackingRecord)) (k x : String)
    (r : TrackingRecord) (hx : x ∈ (ordersSet l k r).map Prod.fst) :
    x = k ∨ x ∈ l.map Prod.fst := by
  induction l with
  | nil => simpa [ordersSet] using hx
  | cons p rest ih =>
      obtain ⟨k1, r1⟩ := p
      by_cases h : k1 = k
      · subst h
        simp [ordersSet] at hx
        rcases hx with h1 | h1
        · exact Or.inl h1
        · exact Or.inr (by simp [h1])
      · simp [ordersSet, h] at hx
        rcases hx with h1 | h1
        · exact Or.inr (by simp [h1])
        · obtain ⟨r2, hr2⟩ := h1
          rcases ih (List.mem_map_of_mem Prod.fst hr2) with h2 | h2
          · exact Or.inl h2
          · exact Or.inr (by simp [h2])

theorem keys_nodup_ordersSet (l : List (String × TrackingRecord)) (k : String)
    (r : TrackingRecord) (h : (l.map Prod.fst).Nodup) :
    ((ordersSet l k r).map Prod.fst).Nodup := by
  induction l with
  | nil => simp [ordersSet]
  | cons p rest ih =>
      obtain ⟨k1, r1⟩ := p
      simp only [List.map_cons, List.nodup_cons] at h
      by_cases hk : k1 = k
      · subst hk
        simpa [ordersSet] using h
      · simp only [ordersSet, hk, if_false, List.map_cons, List.nodup_cons]
        refine ⟨fun hmem => ?_, ih h.2⟩
        rcases mem_keys_ordersSet rest k k1 r hmem with h1 | h1
        · exact hk h1
        · exact h.1 h1

theorem countKey_eq_zero_of_not_mem (l : List (String × TrackingRecord)) (k : String)
    (h : k ∉ l.map Prod.fst) : countKey l k = 0 := by
  induction l with
  | nil => rfl
  | cons p rest ih =>
      simp only [List.map_cons, List.mem_cons, not_or] at h
      have hne : (p.1 == k) = false := by
        simp [Ne.symm h.1]
      simp [countKey, List.filter, hne]
      simpa [countKey] using ih h.2

theorem countKey_ordersSet (l : List (String × TrackingRecord)) (k : String)
    (r : TrackingRecord) (h : (l.map Prod.fst).Nodup) :
    countKey (ordersSet l k r) k = 1 := by
  induction l with
  | nil => simp [ordersSet, countKey]
  | cons p rest ih =>
      obtain ⟨k1, r1⟩ := p
      simp only [List.map_cons, List.nodup_cons] at h
      by_cases hk : k1 = k
      · subst hk
        have h0 := countKey_eq_zero_of_not_mem rest k1 h.1
        simp [ordersSet, countKey, List.filter] at h0 ⊢
        exact h0
      · have hne : (k1 == k) = false := by simp [hk]
        simp [ordersSet, hk, countKey, List.filter, hne]
        simpa [countKey] using ih h.2

/-! Helper lemmas about the normalization strippers. -/

theorem stripDotSuffix_data_front (s : String) : (stripDotSuffix s).data <+: s.data := by
  unfold stripDotSuffix
  split
  next rest2 heq =>
    split
    next => exact List.prefix_refl _
    next =>
      refine ⟨'.' :: (s.data.reverse.takeWhile Char.isDigit).reverse, ?_⟩
      have h1 : s.data.reverse.takeWhile Char.isDigit ++
          s.data.reverse.dropWhile Char.isDigit = s.data.reverse :=
        List.takeWhile_append_dropWhile Char.isDigit s.data.reverse
      have h3 : s.data.reverse = s.data.reverse.takeWhile Char.isDigit ++ ('.' :: rest2) := by
        rw [heq] at h1
        exact h1.symm
      calc (String.mk rest2.reverse).data ++ ('.' :: (s.data.reverse.takeWhile Char.isDigit).reverse)
          = (s.data.reverse.takeWhile Char.isDigit ++ ('.' :: rest2)).reverse := by
            simp [List.reverse_append]
        _ = s.data.reverse.reverse := by rw [← h3]
        _ = s.data := List.reverse_reverse _
  next => exact List.prefix_refl _

theorem stripLeadingHash_fix_of_front (u t : String)
    (hu : stripLeadingHash u = u) (hp : t.data <+: u.data) : stripLeadingHash t = t := by
  unfold stripLeadingHash
  split
  next c rest heq =>
    by_cases hc : c = '#'
    · exfalso
      subst hc
      obtain ⟨suf, hsuf⟩ := hp
      rw [heq] at hsuf
      have hud : u.data = '#' :: (rest ++ suf) := by
        rw [← hsuf]; simp
      have hstrip : stripLeadingHash u = String.mk (rest ++ suf) := by
        unfold stripLeadingHash
        rw [hud]
        simp
      rw [hu] at hstrip
      have : u.data = rest ++ suf := by rw [hstrip]
      rw [hud] at this
      have := congrArg List.length this
      simp at this
    · simp [hc]
  next => rfl

/-! Reduction helpers for the route handlers. -/

theorem verify_reduce (parseJson : List Nat → Option Fulfillment) (key B : List Nat)
    (hm tp sh : String) (hhm : hm ≠ "") (htp : tp ≠ "") (hsh : sh ≠ "") :
    verifyShopifyWebhook parseJson (some key) (some hm) (some tp) (some sh) (some B) =
      if base64Encode (hmacSha256 key B) ≠ hm then Except.ok VerifyOutcome.unauthorized
      else
        match parseJson B with
        | some p => Except.ok (VerifyOutcome.pass p)
        | none => Except.ok VerifyOutcome.badRequest := by
  unfold verifyShopifyWebhook
  simp [jsTruthy, jsOrEmpty, String.isEmpty_iff, hhm, htp, hsh]

theorem handleFulfillment_write (st : Store) (f : Fulfillment) (src u : String)
    (hpick : pickTrackingUrl f = some u)
    (hb : normalizeOrderNumber (jsOrEmpty f.name) ≠ "") :
    handleFulfillment st f src false false =
      (200,
       ⟨ordersSet st.orders (normalizeOrderNumber (jsOrEmpty f.name))
          ⟨normalizeOrderNumber (jsOrEmpty f.name),
           "#" ++ normalizeOrderNumber (jsOrEmpty f.name), u⟩,
        st.history ++ [(normalizeOrderNumber (jsOrEmpty f.name), ⟨u, src⟩)]⟩) := by
  unfold handleFulfillment
  simp [hpick, String.isEmpty_iff, hb]

theorem handleFulfillment_orders_cases (st : Store) (f : Fulfillment) (src : String)
    (sf hf : Bool) :
    ((handleFulfillment st f src sf hf).2).orders = st.orders ∨
    ∃ r, ((handleFulfillment st f src sf hf).2).orders =
      ordersSet st.orders (normalizeOrderNumber (jsOrEmpty f.name)) r := by
  by_cases h1 : (!(normalizeOrderNumber (jsOrEmpty f.name)).isEmpty && (pickTrackingUrl f).isSome) = true
  · cases sf
    · refine Or.inr ⟨⟨normalizeOrderNumber (jsOrEmpty f.name),
        "#" ++ normalizeOrderNumber (jsOrEmpty f.name), (pickTrackingUrl f).getD ""⟩, ?_⟩
      cases hf <;> simp [handleFulfillment, h1]
    · exact Or.inl (by simp [handleFulfillment, h1])
  · exact Or.inl (by simp [handleFulfillment, h1])

theorem pickTrackingUrl_singular (name : Option String) (url : String) (hu : url ≠ "") :
    pickTrackingUrl ⟨name, none, some url⟩ = some url := by
  simp [pickTrackingUrl, String.isEmpty_iff, hu]

theorem pickTrackingUrl_array (name : Option String) (u : String) (rest : List String)
    (t : Option String) (hu : u ≠ "") :
    pickTrackingUrl ⟨name, some (u :: rest), t⟩ = some u := by
  simp [pickTrackingUrl, String.isEmpty_iff, hu]

/-! The claims. -/

/-- C1: with the three required headers non-empty and a non-empty body
present, the verifier classifies the request as unauthorized exactly when
the supplied digest header differs, byte for byte, from the standard
base64 encoding of HMAC-SHA256(secret, body); on an exact match the
outcome is determined solely by JSON parsing (pass or bad-request), and
on a mismatch the outcome is the unauthorized rejection for every
possible parse function, so the payload is never parsed. A mutation of
the body after the sender computed the digest is rejected whenever the
mutated body's digest differs from the supplied header — an instance of
the iff at the mutated body; that any single-byte change produces a
different digest is the collision-resistance idealization of
HMAC-SHA256, carried here by the digest-inequality side of the iff. -/
theorem verify_accepts_iff_digest_matches
    (parseJson : List Nat → Option Fulfillment) (key B : List Nat) (hm tp sh : String)
    (hhm : hm ≠ "") (htp : tp ≠ "") (hsh : sh ≠ "") (hB : B ≠ []) :
    (verifyShopifyWebhook parseJson (some key) (some hm) (some tp) (some sh) (some B)
        = Except.ok VerifyOutcome.unauthorized ↔ hm ≠ base64Encode (hmacSha256 key B))
    ∧ (hm = base64Encode (hmacSha256 key B) →
        verifyShopifyWebhook parseJson (some key) (some hm) (some tp) (some sh) (some B)
          = match parseJson B with
            | some p => Except.ok (VerifyOutcome.pass p)
            | none => Except.ok VerifyOutcome.badRequest)
    ∧ (hm ≠ base64Encode (hmacSha256 key B) →
        ∀ parse2 : List Nat → Option Fulfillment,
          verifyShopifyWebhook parse2 (some key) (some hm) (some tp) (some sh) (some B)
            = Except.ok VerifyOutcome.unauthorized) := by
  have hr := verify_reduce parseJson key B hm tp sh hhm htp hsh
  refine ⟨?_, ?_, ?_⟩
  · rw [hr]
    by_cases hgen : base64Encode (hmacSha256 key B) = hm
    · simp only [hgen, ne_eq, not_true_eq_false, if_false]
      cases hp : parseJson B <;> simp [hp, hgen]
    · rw [if_pos hgen]
      exact iff_of_true rfl (fun h => hgen h.symm)
  · intro h
    rw [hr, if_neg (fun hne => hne h.symm)]
  · intro h parse2
    rw [verify_reduce parse2 key B hm tp sh hhm htp hsh, if_pos (fun he => h he.symm)]

/-- C1 witness: the theorem applied at a concrete secret, headers and
non-empty body. -/
theorem verify_accepts_iff_digest_matches_witness :
    (("h" : String) ≠ "" ∧ ("t" : String) ≠ "" ∧ ("s" : String) ≠ ""
      ∧ ([104, 105] : List Nat) ≠ []) ∧
    ((verifyShopifyWebhook (fun _ => (none : Option Fulfillment)) (some [1, 2]) (some "h")
        (some "t") (some "s") (some [104, 105]) = Except.ok VerifyOutcome.unauthorized
      ↔ "h" ≠ base64Encode (hmacSha256 [1, 2] [104, 105]))
    ∧ ("h" = base64Encode (hmacSha256 [1, 2] [104, 105]) →
        verifyShopifyWebhook (fun _ => (none : Option Fulfillment)) (some [1, 2]) (some "h")
            (some "t") (some "s") (some [104, 105])
          = match (fun _ => (none : Option Fulfillment)) [104, 105] with
            | some p => Except.ok (VerifyOutcome.pass p)
            | none => Except.ok VerifyOutcome.badRequest)
    ∧ ("h" ≠ base64Encode (hmacSha256 [1, 2] [104, 105]) →
        ∀ parse2 : List Nat → Option Fulfillment,
          verifyShopifyWebhook parse2 (some [1, 2]) (some "h") (some "t") (some "s")
              (some [104, 105]) = Except.ok VerifyOutcome.unauthorized)) :=
  ⟨⟨by decide, by decide, by decide, by decide⟩,
   verify_accepts_iff_digest_matches (fun _ => none) [1, 2] [104, 105] "h" "t" "s"
     (by decide) (by decide) (by decide) (by decide)⟩

/-- C2 counterexample: a request whose raw body buffer is present but
empty is not rejected by the presence check — a zero-length Buffer is a
truthy JS object — and the HMAC digest is computed over the empty body.
With the supplied header equal to the base64 HMAC-SHA256 digest of the
empty byte string under key [107] (the digest literal below), the digest
check passes and the middleware reaches JSON parsing, which fails on the
empty body (JSON.parse of the empty string throws, hence the constant
none parse function), yielding the bad-request classification — not the
missing-headers/unauthorized rejection the claim requires for an empty
body, and only after an HMAC digest was computed. -/
theorem empty_present_body_not_rejected_cex :
    verifyShopifyWebhook (fun _ => (none : Option Fulfillment)) (some [107])
        (some "i7mQxAp9YcuXWXqUISUCW+UKyL63RDbjc1uYiTp/ZiA=")
        (some "fulfillments/create") (some "shop.example.com") (some [])
      = Except.ok VerifyOutcome.badRequest := by
  set_option maxRecDepth 100000 in decide

/-- C2 (amended): when any of the three required headers is absent or
empty, or the raw body buffer is absent (undefined — no raw buffer was
captured for the request), the verifier rejects with the missing-headers
classification before constructing any HMAC — the result is the same for
every secret, including an unset one that would make HMAC construction
throw. A present-but-empty raw body, however, passes the presence check
and proceeds to digest computation. -/
theorem missing_headers_rejected_before_hmac
    (parseJson : List Nat → Option Fulfillment) (secret : Option (List Nat))
    (hmacHeader topicHeader shopHeader : Option String) (rawBody : Option (List Nat))
    (h : jsTruthy hmacHeader = false ∨ rawBody = none ∨ jsTruthy topicHeader = false ∨
      jsTruthy shopHeader = false) :
    verifyShopifyWebhook parseJson secret hmacHeader topicHeader shopHeader rawBody
      = Except.ok VerifyOutcome.missingHeaders := by
  unfold verifyShopifyWebhook
  rcases h with h | h | h | h <;> simp [h]

/-- C2 witness: a request with no digest header and no configured secret
is rejected as missing headers (no HMAC is constructed, or the absent
secret would have made the construction throw). -/
theorem missing_headers_rejected_before_hmac_witness :
    (jsTruthy (none : Option String) = false ∨ (some [1] : Option (List Nat)) = none ∨
      jsTruthy (some "fulfillments/create") = false ∨ jsTruthy (some "shop.example.com") = false) ∧
    verifyShopifyWebhook (fun _ => (none : Option Fulfillment)) none none
        (some "fulfillments/create") (some "shop.example.com") (some [1])
      = Except.ok VerifyOutcome.missingHeaders :=
  ⟨Or.inl rfl,
   missing_headers_rejected_before_hmac (fun _ => none) none none (some "fulfillments/create")
     (some "shop.example.com") (some [1]) (Or.inl rfl)⟩

/-- C3 counterexample: normalize is not idempotent on all strings — it
strips at most one leading hash per application, so a second application
still changes the label "##1" (one pass gives "#1", a second pass gives
"1"); strings with stacked dot-suffixes such as "1.2.3" fail the same
way. -/
theorem normalize_not_idempotent_cex :
    normalizeOrderNumber (normalizeOrderNumber "##1") ≠ normalizeOrderNumber "##1" := by
  decide

/-- C3 (amended): normalize is deterministic (it is a pure function of
its input), and it is idempotent on every input whose one-pass result is
fully reduced — when one application exhausts the leading-hash strip and
the trailing dot-number strip (in particular for any label with at most
one leading hash and at most one trailing dot-number group). Inputs such
as "##1" or "1.2.3" require a second application. -/
theorem normalize_idempotent_on_reduced (s : String)
    (h1 : stripLeadingHash (stripLeadingHash s) = stripLeadingHash s)
    (h2 : stripDotSuffix (stripDotSuffix (stripLeadingHash s))
        = stripDotSuffix (stripLeadingHash s)) :
    normalizeOrderNumber (normalizeOrderNumber s) = normalizeOrderNumber s ∧
    normalizeOrderNumber s = normalizeOrderNumber s := by
  refine ⟨?_, rfl⟩
  have hfix : stripLeadingHash (stripDotSuffix (stripLeadingHash s))
      = stripDotSuffix (stripLeadingHash s) :=
    stripLeadingHash_fix_of_front (stripLeadingHash s) (stripDotSuffix (stripLeadingHash s)) h1
      (stripDotSuffix_data_front (stripLeadingHash s))
  unfold normalizeOrderNumber
  rw [hfix, h2]

/-- C3 witness: the amended idempotence at the representative label
"#1001.1" (single leading hash, single dot-suffix). -/
theorem normalize_idempotent_on_reduced_witness :
    (stripLeadingHash (stripLeadingHash "#1001.1") = stripLeadingHash "#1001.1"
      ∧ stripDotSuffix (stripDotSuffix (stripLeadingHash "#1001.1"))
          = stripDotSuffix (stripLeadingHash "#1001.1")) ∧
    (normalizeOrderNumber (normalizeOrderNumber "#1001.1") = normalizeOrderNumber "#1001.1"
      ∧ normalizeOrderNumber "#1001.1" = normalizeOrderNumber "#1001.1") :=
  ⟨⟨by decide, by decide⟩, normalize_idempotent_on_reduced "#1001.1" (by decide) (by decide)⟩

/-- C4: the orders collection holds at most one record per key and every
run of the fulfillment handler preserves that (the write is a keyed
upsert, not an append); in particular, reconciling twice with the same
order label and two different tracking URLs leaves exactly one record
under the normalized key, holding the second URL. -/
theorem store_unique_key_upsert (st : Store) (f : Fulfillment) (src : String) (sf hf : Bool)
    (hU : keysUnique st.orders) :
    keysUnique (((handleFulfillment st f src sf hf).2).orders) ∧
    (∀ name u1 u2 src1 src2 : String, u1 ≠ "" → u2 ≠ "" → u1 ≠ u2 →
      normalizeOrderNumber name ≠ "" →
      countKey (((handleFulfillment
          ((handleFulfillment st ⟨some name, none, some u1⟩ src1 false false).2)
          ⟨some name, none, some u2⟩ src2 false false).2).orders) (normalizeOrderNumber name) = 1
      ∧ ordersGet (((handleFulfillment
          ((handleFulfillment st ⟨some name, none, some u1⟩ src1 false false).2)
          ⟨some name, none, some u2⟩ src2 false false).2).orders) (normalizeOrderNumber name)
        = some ⟨normalizeOrderNumber name, "#" ++ normalizeOrderNumber name, u2⟩) := by
  constructor
  · rcases handleFulfillment_orders_cases st f src sf hf with h | ⟨r, h⟩
    · unfold keysUnique at hU ⊢
      rw [h]
      exact hU
    · unfold keysUnique at hU ⊢
      rw [h]
      exact keys_nodup_ordersSet _ _ _ hU
  · intro name u1 u2 src1 src2 hu1 hu2 hne hb
    have hp1 : pickTrackingUrl ⟨some name, none, some u1⟩ = some u1 :=
      pickTrackingUrl_singular (some name) u1 hu1
    have hp2 : pickTrackingUrl ⟨some name, none, some u2⟩ = some u2 :=
      pickTrackingUrl_singular (some name) u2 hu2
    have hw1 := handleFulfillment_write st ⟨some name, none, some u1⟩ src1 u1 hp1 hb
    have hw2 := handleFulfillment_write
      ((handleFulfillment st ⟨some name, none, some u1⟩ src1 false false).2)
      ⟨some name, none, some u2⟩ src2 u2 hp2 hb
    rw [hw2, hw1]
    have hN : ((ordersSet st.orders (normalizeOrderNumber name)
        ⟨normalizeOrderNumber name, "#" ++ normalizeOrderNumber name, u1⟩).map Prod.fst).Nodup :=
      keys_nodup_ordersSet _ _ _ hU
    exact ⟨countKey_ordersSet _ _ _ hN, ordersGet_ordersSet_self _ _ _⟩

/-- C4 witness: two reconciles of label "1001" with different URLs on an
empty store leave one record, holding the second URL. -/
theorem store_unique_key_upsert_witness :
    (keysUnique Store.empty.orders ∧ ("https://a" : String) ≠ "" ∧ ("https://b" : String) ≠ ""
      ∧ ("https://a" : String) ≠ "https://b" ∧ normalizeOrderNumber "1001" ≠ "") ∧
    (countKey (((handleFulfillment
        ((handleFulfillment Store.empty ⟨some "1001", none, some "https://a"⟩ "A" false false).2)
        ⟨some "1001", none, some "https://b"⟩ "B" false false).2).orders)
        (normalizeOrderNumber "1001") = 1
      ∧ ordersGet (((handleFulfillment
        ((handleFulfillment Store.empty ⟨some "1001", none, some "https://a"⟩ "A" false false).2)
        ⟨some "1001", none, some "https://b"⟩ "B" false false).2).orders)
        (normalizeOrderNumber "1001")
        = some ⟨normalizeOrderNumber "1001", "#" ++ normalizeOrderNumber "1001", "https://b"⟩) :=
  ⟨⟨List.nodup_nil, by decide, by decide, by decide, by decide⟩,
   (store_unique_key_upsert Store.empty ⟨some "1001", none, some "https://a"⟩ "A" false false
      List.nodup_nil).2 "1001" "https://a" "https://b" "A" "B"
     (by decide) (by decide) (by decide) (by decide)⟩

/-- C5: the reconciler and the lookup route normalize with the same
function, so a stored event and a customer query whose raw labels
normalize to the same key resolve to the same record: reconciling an
event with a non-empty tracking URL and then looking up any query that
trims to a non-empty string with the same normalized key returns that
URL. The claim's instance — event label "1001.1", query "#1001" — is the
witness. -/
theorem reconcile_lookup_same_normalization (st : Store) (name url q src : String)
    (hu : url ≠ "") (hq : jsTrim q ≠ "") (hb : normalizeOrderNumber name ≠ "")
    (hnorm : normalizeOrderNumber (jsTrim q) = normalizeOrderNumber name) :
    lookupTracking ((handleFulfillment st ⟨some name, none, some url⟩ src false false).2)
        (some q) false = LookupOutcome.found url := by
  have hw := handleFulfillment_write st ⟨some name, none, some url⟩ src url
    (pickTrackingUrl_singular (some name) url hu) hb
  unfold lookupTracking
  rw [hw]
  simp only [jsOrEmpty]
  simp [String.isEmpty_iff, hq, hnorm, ordersGet_ordersSet_self]

/-- C5 witness: after reconciling label "1001.1" with URL
"https://t.example/x", looking up "#1001" returns that URL. -/
theorem reconcile_lookup_same_normalization_witness :
    (("https://t.example/x" : String) ≠ "" ∧ jsTrim "#1001" ≠ ""
      ∧ normalizeOrderNumber "1001.1" ≠ ""
      ∧ normalizeOrderNumber (jsTrim "#1001") = normalizeOrderNumber "1001.1") ∧
    lookupTracking ((handleFulfillment Store.empty
        ⟨some "1001.1", none, some "https://t.example/x"⟩ "FULFILLMENTS_CREATE" false false).2)
        (some "#1001") false = LookupOutcome.found "https://t.example/x" :=
  ⟨⟨by decide, by decide, by decide, by decide⟩,
   reconcile_lookup_same_normalization Store.empty "1001.1" "https://t.example/x" "#1001"
     "FULFILLMENTS_CREATE" (by decide) (by decide) (by decide) (by decide)⟩

/-- C6: the tracking-URL extractor tries the array field before the
singular field: for a payload carrying both a non-empty first array
element u and a singular field v, the extractor yields u, and the
reconciler stores u under the normalized key. -/
theorem tracking_urls_array_priority (st : Store) (src u v : String) (rest : List String)
    (name : Option String) (hu : u ≠ "")
    (hb : normalizeOrderNumber (jsOrEmpty name) ≠ "") :
    pickTrackingUrl ⟨name, some (u :: rest), some v⟩ = some u ∧
    ordersGet (((handleFulfillment st ⟨name, some (u :: rest), some v⟩ src false false).2).orders)
        (normalizeOrderNumber (jsOrEmpty name))
      = some ⟨normalizeOrderNumber (jsOrEmpty name),
          "#" ++ normalizeOrderNumber (jsOrEmpty name), u⟩ := by
  have hp := pickTrackingUrl_array name u rest (some v) hu
  refine ⟨hp, ?_⟩
  have hw := handleFulfillment_write st ⟨name, some (u :: rest), some v⟩ src u hp hb
  rw [hw]
  exact ordersGet_ordersSet_self _ _ _

/-- C6 witness: the claim's payload — tracking_urls ["https://a"] and
tracking_url "https://b" — is reconciled using "https://a". -/
theorem tracking_urls_array_priority_witness :
    (("https://a" : String) ≠ "" ∧ normalizeOrderNumber (jsOrEmpty (some "1001")) ≠ "") ∧
    (pickTrackingUrl ⟨some "1001", some ["https://a"], some "https://b"⟩ = some "https://a" ∧
     ordersGet (((handleFulfillment Store.empty
         ⟨some "1001", some ["https://a"], some "https://b"⟩ "S" false false).2).orders)
         (normalizeOrderNumber (jsOrEmpty (some "1001")))
       = some ⟨normalizeOrderNumber (jsOrEmpty (some "1001")),
           "#" ++ normalizeOrderNumber (jsOrEmpty (some "1001")), "https://a"⟩) :=
  ⟨⟨by decide, by decide⟩,
   tracking_urls_array_priority Store.empty "S" "https://a" "https://b" [] (some "1001")
     (by decide) (by decide)⟩

/-- C7: a verified, parsed event from which no tracking URL can be
extracted causes no store write at all and is still acknowledged with
HTTP 200 — an incomplete event is a no-op, not an error. -/
theorem incomplete_event_noop (st : Store) (f : Fulfillment) (src : String) (sf hf : Bool)
    (h : pickTrackingUrl f = none) :
    handleFulfillment st f src sf hf = (200, st) := by
  unfold handleFulfillment
  simp [h]

/-- C7 witness: the claim's payload, exactly a name and nothing else,
leaves the store untouched and returns 200. -/
theorem incomplete_event_noop_witness :
    pickTrackingUrl ⟨some "1001", none, none⟩ = none ∧
    handleFulfillment Store.empty ⟨some "1001", none, none⟩ "S" false false
      = (200, Store.empty) :=
  ⟨rfl, incomplete_event_noop Store.empty ⟨some "1001", none, none⟩ "S" false false rfl⟩

/-- C8: once verification has passed, the webhook handler responds HTTP
200 on every outcome — complete or incomplete payload, and either store
write throwing (the exception is caught and swallowed). -/
theorem webhook_always_200_after_verify (st : Store) (f : Fulfillment) (src : String)
    (sf hf : Bool) : (handleFulfillment st f src sf hf).1 = 200 := by
  by_cases h1 : (!(normalizeOrderNumber (jsOrEmpty f.name)).isEmpty
      && (pickTrackingUrl f).isSome) = true
  · cases sf <;> cases hf <;> simp [handleFulfillment, h1]
  · simp [handleFulfillment, h1]

/-- C9: when the shared webhook secret is undefined (environment
variable unset), a request that passes the header/body presence check
makes the verifier throw while constructing the HMAC (Node's createHmac
raises a TypeError on an undefined key) instead of returning a
classified unauthorized rejection. -/
theorem undefined_secret_hmac_throws (parseJson : List Nat → Option Fulfillment)
    (hm tp sh : String) (B : List Nat)
    (hhm : hm ≠ "") (htp : tp ≠ "") (hsh : sh ≠ "") :
    verifyShopifyWebhook parseJson none (some hm) (some tp) (some sh) (some B)
      = Except.error () := by
  unfold verifyShopifyWebhook
  simp [jsTruthy, String.isEmpty_iff, hhm, htp, hsh]

/-- C9 witness: a fully-formed request with no configured secret throws. -/
theorem undefined_secret_hmac_throws_witness :
    (("h" : String) ≠ "" ∧ ("t" : String) ≠ "" ∧ ("s" : String) ≠ "") ∧
    verifyShopifyWebhook (fun _ => (none : Option Fulfillment)) none (some "h") (some "t")
        (some "s") (some [1]) = Except.error () :=
  ⟨⟨by decide, by decide, by decide⟩,
   undefined_secret_hmac_throws (fun _ => none) "h" "t" "s" [1]
     (by decide) (by decide) (by decide)⟩

/-- C10: an event whose order label normalizes to the empty string is
treated like an incomplete event — no store write, HTTP 200 — even when
the payload carries a valid tracking URL. -/
theorem empty_normalized_key_noop (st : Store) (f : Fulfillment) (src : String) (sf hf : Bool)
    (h : normalizeOrderNumber (jsOrEmpty f.name) = "") :
    handleFulfillment st f src sf hf = (200, st) := by
  unfold handleFulfillment
  simp [h, String.isEmpty_iff]

/-- C10 witness: a label ".1" normalizes to the empty string, so the
event is skipped although its tracking URL is present and non-empty. -/
theorem empty_normalized_key_noop_witness :
    (normalizeOrderNumber (jsOrEmpty (some ".1")) = ""
      ∧ pickTrackingUrl ⟨some ".1", none, some "https://t.example/x"⟩
          = some "https://t.example/x") ∧
    handleFulfillment Store.empty ⟨some ".1", none, some "https://t.example/x"⟩ "S" false false
      = (200, Store.empty) :=
  ⟨⟨by decide, by decide⟩,
   empty_normalized_key_noop Store.empty ⟨some ".1", none, some "https://t.example/x"⟩ "S"
     false false (by decide)⟩

end ShopifyTracker
